import Mathlib

/-!
Verification of the flashcard generation pipeline of the ai-study-buddy
backend (`backend/models/flashcard.py`).  Python strings are modelled as
`List Char`; every helper mirrors the semantics of the Python operation
(`str.strip`, `str.split`, the concrete regexes of the source) on the
ASCII inputs the pipeline handles.
-/

set_option maxRecDepth 20000
set_option maxHeartbeats 4000000

namespace StudyBuddy

/-- Python whitespace characters (`\s`, ASCII range). -/
def isSpaceC (c : Char) : Bool :=
  c == ' ' || c == '\t' || c == '\n' || c == '\r' || c == '\x0b' || c == '\x0c'

/-- Python word characters (`\w`, ASCII range). -/
def isWordC (c : Char) : Bool :=
  c.isAlpha || c.isDigit || c == '_'

/-- ASCII uppercase letter (`[A-Z]`, no IGNORECASE). -/
def isUpperC (c : Char) : Bool :=
  'A' ≤ c && c ≤ 'Z'

/-- Lowercase a single ASCII character. -/
def lowerC (c : Char) : Char := c.toLower

/-- Lowercase a whole string (Python `str.lower` on ASCII input). -/
def lowerL (l : List Char) : List Char := l.map lowerC

/-- Python `str.strip()`: drop leading and trailing whitespace. -/
def pyStrip (l : List Char) : List Char :=
  ((l.dropWhile isSpaceC).reverse.dropWhile isSpaceC).reverse

/-- Single-pass accumulator scan behind `runsBy` (`cur` holds the current
run reversed). -/
def runsByGo (p : Char → Bool) (cur : List Char) : List Char → List (List Char)
  | [] => if cur.isEmpty then [] else [cur.reverse]
  | c :: rest =>
    if p c then runsByGo p (c :: cur) rest
    else if cur.isEmpty then runsByGo p [] rest
    else cur.reverse :: runsByGo p [] rest

/-- Maximal runs of characters satisfying `p`, in order (used both for
`str.split()` tokens and for `\w+` word tokens). -/
def runsBy (p : Char → Bool) (l : List Char) : List (List Char) :=
  runsByGo p [] l

/-- Python `str.split()` with no argument: whitespace-separated tokens. -/
def pySplitWs (l : List Char) : List (List Char) :=
  runsBy (fun c => !isSpaceC c) l

/-- Number of whitespace-separated words (`len(s.split())`). -/
def wordCount (l : List Char) : Nat := (pySplitWs l).length

/-- Scan behind `collapseWs`; `inWs` records whether the previous character
was inside a whitespace run already replaced by a single space. -/
def collapseWsGo (inWs : Bool) : List Char → List Char
  | [] => []
  | c :: rest =>
    if isSpaceC c then
      if inWs then collapseWsGo true rest else ' ' :: collapseWsGo true rest
    else c :: collapseWsGo false rest

/-- Python `re.sub(r"\s+", " ", s)`: collapse each whitespace run to one space. -/
def collapseWs (l : List Char) : List Char :=
  collapseWsGo false l

/-- Does `pre` occur at the head of `l` (case-sensitive)? -/
def liStarts : List Char → List Char → Bool
  | [], _ => true
  | _ :: _, [] => false
  | p :: ps, c :: cs => p == c && liStarts ps cs

/-- Case-insensitive match of one pattern character `p` (stored lowercase)
against a text character `c`: equal outright, or `c` is the ASCII
uppercase form of `p`.  Agrees with `p == lowerC c` for lowercase-stored
patterns, avoiding the costly `Char.ofNat` path of `Char.toLower`. -/
def charCI (p c : Char) : Bool :=
  p == c || (('A' ≤ c && c ≤ 'Z') && c.toNat + 32 == p.toNat)

/-- Does `pat` (stored lowercase) occur at the head of `l`, comparing
case-insensitively (regex literal under `re.IGNORECASE`)? -/
def liStartsCI : List Char → List Char → Bool
  | [], _ => true
  | _ :: _, [] => false
  | p :: ps, c :: cs => charCI p c && liStartsCI ps cs

/-- Substring containment (Python `needle in hay`). -/
def containsSub (needle : List Char) : List Char → Bool
  | [] => liStarts needle []
  | c :: rest => liStarts needle (c :: rest) || containsSub needle rest

/-- Does `w` end with suffix `suf`? -/
def liEnds (suf w : List Char) : Bool :=
  liStarts suf.reverse w.reverse

/-- Scan behind `splitOnSep2` (`acc` holds the current piece reversed). -/
def splitOnSep2Go (s1 s2 : Char) (acc : List Char) : List Char → List (List Char)
  | [] => [acc.reverse]
  | [c] => [(c :: acc).reverse]
  | c :: d :: rest2 =>
    if c == s1 && d == s2 then acc.reverse :: splitOnSep2Go s1 s2 [] rest2
    else splitOnSep2Go s1 s2 (c :: acc) (d :: rest2)

/-- Python `str.split(sep)` for a fixed two-character separator,
scanning left to right and keeping empty pieces. -/
def splitOnSep2 (s1 s2 : Char) (l : List Char) : List (List Char) :=
  splitOnSep2Go s1 s2 [] l

/-- The abbreviation alternatives of the masking regex, in the source's
alternation order (`Dr|Mr|Ms|Mrs|Prof|Inc|Ltd|etc|vs|e\.g|i\.e`). -/
def abbrevAlts : List (List Char) :=
  ["Dr".data, "Mr".data, "Ms".data, "Mrs".data, "Prof".data, "Inc".data,
   "Ltd".data, "etc".data, "vs".data, "e.g".data, "i.e".data]

/-- First `some` produced by `f` over `l` (regex alternation order). -/
def firstSome : List α → (α → Option β) → Option β
  | [], _ => none
  | a :: rest, f =>
    match f a with
    | some b => some b
    | none => firstSome rest f

/-- Try the abbreviation-masking regex at the current position.  The source
pattern is the raw string `r"\b(?:Dr|...|i\.e)\\."`, whose tail `\\.` is an
escaped backslash followed by any character: a match therefore needs a
literal backslash after the abbreviation.  Returns the matched length. -/
def findAbbrevMatch (l : List Char) : Option Nat :=
  firstSome abbrevAlts fun a =>
    if liStarts a l then
      match l.drop a.length with
      | b :: c :: _ => if b == '\\' && c != '\n' then some (a.length + 2) else none
      | _ => none
    else none

/-- One masking replacement: `m.group().replace(".", "●")`. -/
def maskDots (l : List Char) : List Char :=
  l.map fun c => if c == '.' then '●' else c

/-- Scan of `re.sub` for the abbreviation mask; `prevW` tracks whether the
previous character was a word character (for the leading `\b`).  The
`fuel` parameter only drives the recursion: every step consumes at least
one character, so `fuel = l.length` never runs out. -/
def maskAbbrevGo : Nat → Bool → List Char → List Char
  | 0, _, l => l
  | fuel + 1, prevW, l =>
    match l with
    | [] => []
    | c :: rest =>
      if !prevW then
        match findAbbrevMatch (c :: rest) with
        | some k =>
          maskDots ((c :: rest).take (max k 1)) ++
            maskAbbrevGo fuel true ((c :: rest).drop (max k 1))
        | none => c :: maskAbbrevGo fuel (isWordC c) rest
      else c :: maskAbbrevGo fuel (isWordC c) rest

/-- The abbreviation-masking step of `_split_into_sentences`. -/
def maskAbbrev (l : List Char) : List Char := maskAbbrevGo l.length false l

/-- Is `c` one of the sentence terminators `[.!?]`? -/
def isTermC (c : Char) : Bool := c == '.' || c == '!' || c == '?'

/-- Scan of `re.split(r"(?<=[.!?])\s+(?=[A-Z])", text)`: cut where a
terminator is followed by a whitespace run and then an ASCII capital.
The `fuel` parameter only drives the recursion: every step consumes at
least one character, so `fuel = l.length` never runs out. -/
def sentBoundsGo : Nat → List Char → List Char → Option Char → List (List Char)
  | 0, l, acc, _ => [acc.reverse ++ l]
  | fuel + 1, l, acc, prev =>
    match l with
    | [] => [acc.reverse]
    | c :: rest =>
      if (match prev with | some p => isTermC p | none => false) && isSpaceC c then
        if (rest.dropWhile isSpaceC).isEmpty then
          sentBoundsGo fuel rest (c :: acc) (some c)
        else if isUpperC ((rest.dropWhile isSpaceC).headD ' ') then
          acc.reverse :: sentBoundsGo fuel (rest.dropWhile isSpaceC) [] none
        else sentBoundsGo fuel rest (c :: acc) (some c)
      else sentBoundsGo fuel rest (c :: acc) (some c)

/-- Python `s.isspace()`: nonempty and all whitespace. -/
def pyIsSpace (l : List Char) : Bool :=
  !l.isEmpty && l.all isSpaceC

/-- Does the fragment match `re.match(r"^[A-Z]\.$", s)`? -/
def isCapDot (l : List Char) : Bool :=
  match l with
  | [c, d] => isUpperC c && d == '.'
  | _ => false

/-- Model of `_split_into_sentences`: mask abbreviation periods (per the source's
actual regex), split on terminator + whitespace + capital, unmask, strip,
keep fragments longer than 25 characters with at least five words, and
collapse internal whitespace. -/
def splitIntoSentencesL (text : List Char) : List (List Char) :=
  let masked := maskAbbrev text
  let frags := sentBoundsGo masked.length masked [] none
  frags.filterMap fun s =>
    let s := pyStrip (s.map fun c => if c == '●' then '.' else c)
    if 25 < s.length && !pyIsSpace s && !isCapDot s && 5 ≤ wordCount s then
      some (collapseWs s)
    else none

/-- String-level wrapper of `_split_into_sentences`. -/
def splitIntoSentences (text : String) : List String :=
  (splitIntoSentencesL text.data).map String.mk

/-- Model of `_split_into_paragraphs`: split on blank lines (`"\n\n"`), strip each
piece, keep the nonempty ones, and fall back to the whole text when no
piece survives. -/
def splitIntoParagraphsL (text : List Char) : List (List Char) :=
  let ps := (splitOnSep2 '\n' '\n' text).filterMap fun p =>
    let s := pyStrip p
    if s.isEmpty then none else some s
  if ps.isEmpty then [text] else ps

/-- String-level wrapper of `_split_into_paragraphs`. -/
def splitIntoParagraphs (text : String) : List String :=
  (splitIntoParagraphsL text.data).map String.mk

/-- Word tokens: maximal runs of `\w` characters. -/
def wordRuns (l : List Char) : List (List Char) := runsBy isWordC l

/-- The technical-term suffixes of `_assess_difficulty`
(`tion|ism|ology|ment|ity|ness`). -/
def technicalSuffixes : List (List Char) :=
  ["tion".data, "ism".data, "ology".data, "ment".data, "ity".data, "ness".data]

/-- Count of `re.findall(r"\b\w*(?:tion|ism|ology|ment|ity|ness)\b", text, re.IGNORECASE)`:
word tokens ending (case-insensitively) in one of the suffixes. -/
def technicalCount (l : List Char) : Nat :=
  ((wordRuns l).filter fun w =>
    technicalSuffixes.any fun s => liEnds s (lowerL w)).length

/-- The abstract-concept markers of `_assess_difficulty`. -/
def abstractWords : List (List Char) :=
  ["concept".data, "theory".data, "principle".data, "system".data,
   "process".data, "mechanism".data]

/-- Count of `re.findall(r"\b(?:concept|theory|principle|system|process|mechanism)\b", ...)`:
word tokens equal (case-insensitively) to one of the markers. -/
def abstractCount (l : List Char) : Nat :=
  ((wordRuns l).filter fun w =>
    abstractWords.any fun s => lowerL w == s).length

/-- Count of whitespace-separated words longer than 7 characters. -/
def longWordCount (l : List Char) : Nat :=
  ((pySplitWs l).filter fun w => 7 < w.length).length

/-- Count of commas, semicolons and colons (`text.count(",") + ...`). -/
def punctCount (l : List Char) : Nat :=
  (l.filter fun c => c == ',' || c == ';' || c == ':').length

/-- The `question_complexity` indicator of `_assess_difficulty`: 1 when the
question contains an analytical stem, 0 otherwise. -/
def questionComplexity (q : List Char) : Nat :=
  if ["how".data, "why".data, "analyze".data, "compare".data].any
      (fun w => containsSub w (lowerL q)) then 1 else 0

/-- Model of `_assess_difficulty`: weighted score over the concatenated
question+answer text; note the technical-terms indicator adds 2. -/
def assessDifficultyL (question answer : List Char) : String :=
  let text := question ++ ' ' :: answer
  let score :=
    (if 25 < wordCount text then 1 else 0) +
    (if 2 < longWordCount text then 1 else 0) +
    (if 1 < technicalCount text then 2 else 0) +
    (if 1 < punctCount text then 1 else 0) +
    (if 0 < abstractCount text then 1 else 0) +
    (if 0 < questionComplexity question then 1 else 0)
  if score ≤ 2 then "easy" else if score ≤ 4 then "medium" else "hard"

/-- String-level wrapper of `_assess_difficulty`. -/
def assessDifficulty (question answer : String) : String :=
  assessDifficultyL question.data answer.data

/-- The interrogative words required by `_is_quality_question`. -/
def interrogatives : List (List Char) :=
  ["what".data, "how".data, "why".data, "when".data, "where".data,
   "which".data, "who".data]

/-- Model of `_is_quality_question`: the acceptance predicate of the quality gate,
with every conjunct in the source's order. -/
def isQualityQuestionL (question answer : List Char) : Bool :=
  10 ≤ question.length &&
  question.length ≤ 150 &&
  15 ≤ answer.length &&
  answer.length ≤ 500 &&
  (match question.getLast? with | some c => c == '?' | none => false) &&
  (interrogatives.any fun w => containsSub w (lowerL question)) &&
  !(["question:".data, "ask:".data, "generate:".data].any
      fun p => liStarts p (lowerL question)) &&
  !(["answer:".data, "response:".data].any
      fun p => liStarts p (lowerL answer)) &&
  question != answer &&
  3 ≤ wordCount question &&
  4 ≤ wordCount answer

/-- String-level wrapper of `_is_quality_question`. -/
def isQualityQuestion (question answer : String) : Bool :=
  isQualityQuestionL question.data answer.data

/-- The stopwords stripped by `_normalize_for_comparison`, in the regex's
alternation order (`what|is|the|a|an|how|does|do|are`). -/
def stopwordAlts : List (List Char) :=
  ["what".data, "is".data, "the".data, "a".data, "an".data, "how".data,
   "does".data, "do".data, "are".data]

/-- Try the stopword regex at the current position: a stopword alternative
followed by a word-boundary.  Returns the matched length. -/
def findStopMatch (l : List Char) : Option Nat :=
  firstSome stopwordAlts fun w =>
    if liStarts w l then
      match l.drop w.length with
      | [] => some w.length
      | c :: _ => if isWordC c then none else some w.length
    else none

/-- Scan of `re.sub(r"\b(?:what|is|the|a|an|how|does|do|are)\b", "", text)`;
`prevW` tracks the leading word-boundary.  The `fuel` parameter only
drives the recursion: every step consumes at least one character, so
`fuel = l.length` never runs out. -/
def removeStopwordsGo : Nat → Bool → List Char → List Char
  | 0, _, l => l
  | fuel + 1, prevW, l =>
    match l with
    | [] => []
    | c :: rest =>
      if !prevW then
        match findStopMatch (c :: rest) with
        | some k => removeStopwordsGo fuel true ((c :: rest).drop (max k 1))
        | none => c :: removeStopwordsGo fuel (isWordC c) rest
      else c :: removeStopwordsGo fuel (isWordC c) rest

/-- Model of `_normalize_for_comparison`: lowercase, strip stopwords, strip
punctuation (`[^\w\s]`), collapse whitespace, strip. -/
def normalizeForComparisonL (l : List Char) : List Char :=
  pyStrip (collapseWs
    ((removeStopwordsGo l.length false (lowerL l)).filter fun c =>
      isWordC c || isSpaceC c))

/-- String-level wrapper of `_normalize_for_comparison`. -/
def normalizeForComparison (text : String) : String :=
  String.mk (normalizeForComparisonL text.data)

/-- A generated flashcard record; optional fields model dictionary keys
that are present only for some generation strategies. -/
structure Card where
  id : String
  question : String
  answer : String
  difficulty : String
  type : String
  model : Option String
  category : Option String
deriving DecidableEq, Repr

/-- Normalization key of a card, exactly as `_ensure_question_quality`
computes it (question stripped first). -/
def cardKey (c : Card) : List Char :=
  normalizeForComparisonL (pyStrip c.question.data)

/-- Loop of `_ensure_question_quality`: walk the pool, re-check quality,
skip seen normalization keys, stop once `target` cards are kept (`cnt`
counts the cards kept so far). -/
def ensureGo (qs : List Card) (seen : List (List Char)) (cnt target : Nat) :
    List Card :=
  match qs with
  | [] => []
  | q :: rest =>
    let qu := pyStrip q.question.data
    let an := pyStrip q.answer.data
    if !isQualityQuestionL qu an then ensureGo rest seen cnt target
    else
      let key := normalizeForComparisonL qu
      if seen.contains key then ensureGo rest seen cnt target
      else
        q :: (if target ≤ cnt + 1 then []
              else ensureGo rest (key :: seen) (cnt + 1) target)

/-- Model of `_ensure_question_quality`: final quality control and deduplication. -/
def ensureQuestionQuality (qs : List Card) (target : Nat) : List Card :=
  ensureGo qs [] 0 target

/-- Template pieces of the extraction rules (`.format({0}, {1})` slots). -/
inductive Piece
  | lit (s : List Char)
  | gA
  | gB
deriving DecidableEq, Repr

/-- Fill a template with the two (stripped) capture groups. -/
def fmtT (pieces : List Piece) (g1 g2 : List Char) : List Char :=
  (pieces.map fun pc =>
    match pc with
    | Piece.lit s => s
    | Piece.gA => g1
    | Piece.gB => g2).flatten

/-- Shape shared by all nine extraction regexes of
`_create_pattern_based_questions`:
`PRE (g1 : [A-Z]?[^.!?]{lo,hi}) SEP (g2 : [^.!?]{lo2,}) [.!?]`,
with literal prefix/separator alternatives tried in alternation order and
matched case-insensitively (`re.IGNORECASE`). -/
structure PatSpec where
  pres : List (List Char)
  alphaFirst : Bool
  g1lo : Nat
  g1hi : Nat
  seps : List (List Char)
  g2lo : Nat
  qph : List Piece
  aph : List Piece

/-- Characters allowed inside capture groups: `[^.!?]`. -/
def isGroupC (c : Char) : Bool := !isTermC c

/-- Try each separator alternative in order at the head of `l` (after the
separator's leading literal space has already been consumed); on a hit,
take the greedy `[^.!?]` run as group two and require the `[.!?]`
terminator right after it (backtracking to later alternatives on
failure). Returns the group and the consumed length from `l`. -/
def trySepAlts (seps : List (List Char)) (g2lo : Nat) (l : List Char) :
    Option (List Char × Nat) :=
  match seps with
  | [] => none
  | sep :: rest =>
    if liStartsCI sep l then
      let after := l.drop sep.length
      let run := after.takeWhile isGroupC
      if g2lo ≤ run.length && run.length < after.length then
        some (run, sep.length + run.length + 1)
      else trySepAlts rest g2lo l
    else trySepAlts rest g2lo l

/-- Every separator of the source's nine regexes is written `" alt "`:
a literal space, then the alternation.  Match the space first, then the
alternatives (stored without their leading space). -/
def trySeps (seps : List (List Char)) (g2lo : Nat) (l : List Char) :
    Option (List Char × Nat) :=
  match l with
  | [] => none
  | c :: rest =>
    if c == ' ' then
      match trySepAlts seps g2lo rest with
      | some (g2, k) => some (g2, k + 1)
      | none => none
    else none

/-- Pairs `(i, l.drop i)` for `i = 0 .. k` (cut short at the end of `l`),
built in one forward pass. -/
def dropPairs : Nat → Nat → List Char → List (Nat × List Char)
  | i, 0, l => [(i, l)]
  | i, k + 1, l =>
    (i, l) :: (match l with
      | [] => []
      | _ :: rest => dropPairs (i + 1) k rest)

/-- Greedy countdown over the candidate lengths of group one's
`[^.!?]{g1lo,·}` part (`base` accounts for a leading `[A-Z]` character):
regex backtracking tries the longest candidate first. -/
def g1Countdown (body : List Char) (base g1lo : Nat) (seps : List (List Char))
    (g2lo : Nat) (n : Nat) : Option (List Char × List Char × Nat) :=
  firstSome ((dropPairs 0 n (body.drop base)).reverse) fun iq =>
    if iq.1 < g1lo then none
    else
      match trySeps seps g2lo iq.2 with
      | some (g2, c2) => some (body.take (base + iq.1), g2, base + iq.1 + c2)
      | none => none

/-- Try a whole pattern at the current position, following the regex's
backtracking order: prefix alternatives, then group-one lengths longest
first, then separator alternatives.  Returns both groups (unstripped) and
the total consumed length. -/
def matchPatAt (p : PatSpec) (l : List Char) :
    Option (List Char × List Char × Nat) :=
  firstSome p.pres fun pre =>
    if liStartsCI pre l then
      let body := l.drop pre.length
      let okFirst :=
        if p.alphaFirst then
          match body with
          | c :: _ => c.isAlpha
          | [] => false
        else true
      if okFirst then
        let base := if p.alphaFirst then 1 else 0
        let runLen := (((body.drop base).take (p.g1hi + 1)).takeWhile isGroupC).length
        match g1Countdown body base p.g1lo p.seps p.g2lo (min p.g1hi runLen) with
        | some (g1, g2, k) => some (g1, g2, pre.length + k)
        | none => none
      else none
    else none

/-- Model of `re.finditer`: scan left to right, emitting non-overlapping
matches and resuming after each match's end.  The `fuel` parameter only
drives the recursion: every step consumes at least one character, so
`fuel = l.length` never runs out. -/
def findIterGo (p : PatSpec) : Nat → List Char → List (List Char × List Char)
  | 0, _ => []
  | fuel + 1, l =>
    match l with
    | [] => []
    | c :: rest =>
      match matchPatAt p (c :: rest) with
      | some (g1, g2, k) =>
        (g1, g2) :: findIterGo p fuel ((c :: rest).drop (max k 1))
      | none => findIterGo p fuel rest

/-- Model of `re.finditer` at full fuel. -/
def findIter (p : PatSpec) (l : List Char) : List (List Char × List Char) :=
  findIterGo p l.length l

/-- Candidate pair before id/difficulty assignment (a raw question dict). -/
structure PreCard where
  question : List Char
  answer : List Char
  type : String
  category : Option String
deriving DecidableEq, Repr

/-- Definition rule 1: `([A-Z][^.!?]{3,50}) (?:is|are) (?:a|an|the) ([^.!?]{20,})[.!?]`. -/
def defsP1 : PatSpec :=
  ⟨[[]], true, 3, 50,
   ["is a ".data, "is an ".data, "is the ".data,
    "are a ".data, "are an ".data, "are the ".data], 20,
   [Piece.lit "What is ".data, Piece.gA, Piece.lit "?".data],
   [Piece.gA, Piece.lit " is ".data, Piece.gB, Piece.lit ".".data]⟩

/-- Definition rule 2: `([A-Z][^.!?]{5,50}) (?:refers to|means) ([^.!?]{15,})[.!?]`. -/
def defsP2 : PatSpec :=
  ⟨[[]], true, 5, 50, ["refers to ".data, "means ".data], 15,
   [Piece.lit "What does ".data, Piece.gA, Piece.lit " refer to?".data],
   [Piece.gA, Piece.lit " refers to ".data, Piece.gB, Piece.lit ".".data]⟩

/-- Definition rule 3: `The term ([^.!?]{5,40}) (?:describes|denotes) ([^.!?]{15,})[.!?]`. -/
def defsP3 : PatSpec :=
  ⟨["the term ".data], false, 5, 40, ["describes ".data, "denotes ".data], 15,
   [Piece.lit "What does the term ".data, Piece.gA, Piece.lit " describe?".data],
   [Piece.lit "The term ".data, Piece.gA, Piece.lit " describes ".data,
    Piece.gB, Piece.lit ".".data]⟩

/-- Process rule 1: `([^.!?]{10,50}) (?:involves|consists of|includes) ([^.!?]{20,})[.!?]`. -/
def procP1 : PatSpec :=
  ⟨[[]], false, 10, 50,
   ["involves ".data, "consists of ".data, "includes ".data], 20,
   [Piece.lit "What does ".data, Piece.gA, Piece.lit " involve?".data],
   [Piece.gA, Piece.lit " involves ".data, Piece.gB, Piece.lit ".".data]⟩

/-- Process rule 2: `The process of ([^.!?]{10,40}) (?:requires|needs|uses) ([^.!?]{15,})[.!?]`. -/
def procP2 : PatSpec :=
  ⟨["the process of ".data], false, 10, 40,
   ["requires ".data, "needs ".data, "uses ".data], 15,
   [Piece.lit "What does the process of ".data, Piece.gA, Piece.lit " require?".data],
   [Piece.lit "The process of ".data, Piece.gA, Piece.lit " requires ".data,
    Piece.gB, Piece.lit ".".data]⟩

/-- Function rule 1: `([^.!?]{10,50}) (?:serves to|functions to|helps to) ([^.!?]{15,})[.!?]`. -/
def funcP1 : PatSpec :=
  ⟨[[]], false, 10, 50,
   ["serves to ".data, "functions to ".data, "helps to ".data], 15,
   [Piece.lit "What does ".data, Piece.gA, Piece.lit " serve to do?".data],
   [Piece.gA, Piece.lit " serves to ".data, Piece.gB, Piece.lit ".".data]⟩

/-- Function rule 2: `The (?:purpose|function|role) of ([^.!?]{10,40}) is (?:to )?([^.!?]{15,})[.!?]`. -/
def funcP2 : PatSpec :=
  ⟨["the purpose of ".data, "the function of ".data, "the role of ".data],
   false, 10, 40, ["is to ".data, "is ".data], 15,
   [Piece.lit "What is the purpose of ".data, Piece.gA, Piece.lit "?".data],
   [Piece.lit "The purpose of ".data, Piece.gA, Piece.lit " is ".data,
    Piece.gB, Piece.lit ".".data]⟩

/-- Characteristic rule 1: `([^.!?]{10,50}) (?:is characterized by|features|exhibits) ([^.!?]{15,})[.!?]`. -/
def charP1 : PatSpec :=
  ⟨[[]], false, 10, 50,
   ["is characterized by ".data, "features ".data, "exhibits ".data], 15,
   [Piece.lit "What characterizes ".data, Piece.gA, Piece.lit "?".data],
   [Piece.gA, Piece.lit " is characterized by ".data, Piece.gB, Piece.lit ".".data]⟩

/-- Characteristic rule 2: `([^.!?]{10,50}) (?:has|contains|possesses) ([^.!?]{15,})[.!?]`. -/
def charP2 : PatSpec :=
  ⟨[[]], false, 10, 50,
   ["has ".data, "contains ".data, "possesses ".data], 15,
   [Piece.lit "What does ".data, Piece.gA, Piece.lit " contain?".data],
   [Piece.gA, Piece.lit " contains ".data, Piece.gB, Piece.lit ".".data]⟩

/-- The `concept_patterns` table in the source's iteration order
(definitions, processes, functions, characteristics). -/
def patTable : List (PatSpec × String) :=
  [(defsP1, "definitions"), (defsP2, "definitions"), (defsP3, "definitions"),
   (procP1, "processes"), (procP2, "processes"),
   (funcP1, "functions"), (funcP2, "functions"),
   (charP1, "characteristics"), (charP2, "characteristics")]

/-- All pattern-rule candidates over the content, in rule-priority order,
keeping only matches whose stripped groups both exceed 3 characters. -/
def patCandidates (content : List Char) : List PreCard :=
  (patTable.map fun pc =>
    (findIter pc.1 content).filterMap fun g =>
      let g1 := pyStrip g.1
      let g2 := pyStrip g.2
      if 3 < g1.length && 3 < g2.length then
        some ⟨fmtT pc.1.qph g1 g2, fmtT pc.1.aph g1 g2,
              "pattern_" ++ pc.2, some pc.2⟩
      else none).flatten

/-- Model of `_find_sentence_with_words`: first sentence containing one of the
keywords, else the first sentence, else the empty string. -/
def findSentenceWithWords (sentences : List (List Char))
    (keywords : List (List Char)) : List Char :=
  match sentences.find? (fun s => keywords.any fun k => containsSub k (lowerL s)) with
  | some s => s
  | none =>
    match sentences with
    | s :: _ => s
    | [] => []

/-- Model of `_create_general_questions`: template questions driven by content
keywords; returns `[]` when there are no sentences, and keeps only
templates with a nonempty answer. -/
def createGeneralQuestions (sentences : List (List Char)) (content : List Char)
    (numNeeded : Nat) : List PreCard :=
  if sentences.isEmpty then []
  else
    let cl := lowerL content
    let s0 := sentences.headD []
    let econ :=
      if ["economy".data, "economic".data, "market".data, "price".data].any
          (fun w => containsSub w cl) then
        [("What type of economic system is described?".data, s0),
         ("How do prices function in this system?".data,
          findSentenceWithWords sentences ["price".data, "signal".data, "guide".data]),
         ("What guides economic decisions?".data,
          findSentenceWithWords sentences ["decision".data, "guide".data, "determine".data])]
      else []
    let sci :=
      if ["process".data, "occurs".data, "involves".data, "produces".data].any
          (fun w => containsSub w cl) then
        [("What process is being described?".data, s0),
         ("How does this process work?".data,
          findSentenceWithWords sentences ["process".data, "involves".data, "occurs".data]),
         ("What are the results of this process?".data,
          findSentenceWithWords sentences ["result".data, "produce".data, "create".data])]
      else []
    let gens :=
      [("What is the main concept discussed?".data, s0),
       ("What are the key characteristics mentioned?".data,
        if 1 < sentences.length then sentences.getD 1 [] else s0),
       ("What examples are provided?".data,
        if 1 < sentences.length then sentences.getLastD [] else s0)]
    ((econ ++ sci ++ gens).take numNeeded).filterMap fun t =>
      if t.2.isEmpty then none
      else some ⟨t.1, t.2, "general_template", none⟩

/-- Promote a raw question dict to a `Card` with its id and difficulty. -/
def cardOfPre (id : String) (pre : PreCard) : Card :=
  ⟨id, String.mk pre.question, String.mk pre.answer,
   assessDifficultyL pre.question pre.answer, pre.type, none, pre.category⟩

/-- Model of `_create_pattern_based_questions`: pattern-rule candidates first,
topped up with general templates, truncated to the requested number, with
sequential ids and difficulty labels. -/
def createPatternBasedQuestions (sentences : List (List Char))
    (content : List Char) (numQuestions : Nat) : List Card :=
  let qs := (patCandidates content).take numQuestions
  let qs :=
    if qs.length < numQuestions then
      qs ++ createGeneralQuestions sentences content (numQuestions - qs.length)
    else qs
  (qs.take numQuestions).enum.map fun iq => cardOfPre (toString (iq.1 + 1)) iq.2

/-- Decoded flashcard object from the provider's JSON (`card.get` keys may
be absent). -/
structure RawCard where
  question : Option String
  answer : Option String
deriving DecidableEq, Repr

/-- Outcome of locating and decoding the JSON block inside the provider's
free-form response text. -/
inductive DecodeOutcome
  | malformed
  | noFlashcardsKey
  | flashcards (cards : List RawCard)
deriving DecidableEq, Repr

/-- Body of a 200 response from the provider. -/
inductive GeminiBody
  | noCandidates
  | badCandidate
  | text (d : DecodeOutcome)
deriving DecidableEq, Repr

/-- Behaviour of the outbound HTTP call. -/
inductive HttpOutcome
  | timeout
  | reqError
  | exc
  | response (status : Nat) (body : GeminiBody)
deriving DecidableEq, Repr

/-- Model of `_parse_gemini_response` on the decode outcome: any decode failure or
missing "flashcards" key yields the empty list. -/
def parseGeminiResponse : DecodeOutcome → List RawCard
  | DecodeOutcome.malformed => []
  | DecodeOutcome.noFlashcardsKey => []
  | DecodeOutcome.flashcards cards => cards

/-- Python truthiness of the configured API key (`if not self.gemini_api_key`). -/
def keyTruthy : Option String → Bool
  | none => false
  | some k => !(k == "")

/-- Body of `_try_gemini_generation` before the `except` clauses: the
network-level failures surface as errors, everything else returns the
accepted cards (enumeration indices count all decoded cards, kept or not). -/
def tryGeminiBodyE (apiKey : Option String) (out : HttpOutcome)
    (numCards : Nat) : Except String (List Card) :=
  if !keyTruthy apiKey then Except.ok []
  else
    match out with
    | HttpOutcome.timeout => Except.error "Timeout"
    | HttpOutcome.reqError => Except.error "RequestException"
    | HttpOutcome.exc => Except.error "Exception"
    | HttpOutcome.response status body =>
      if status == 200 then
        match body with
        | GeminiBody.noCandidates => Except.ok []
        | GeminiBody.badCandidate => Except.ok []
        | GeminiBody.text d =>
          let data := parseGeminiResponse d
          Except.ok (((data.take numCards).enum).filterMap fun ic =>
            let q := pyStrip (ic.2.question.getD "").data
            let a := pyStrip (ic.2.answer.getD "").data
            if isQualityQuestionL q a then
              some ⟨toString (ic.1 + 1), String.mk q, String.mk a,
                    assessDifficultyL q a, "gemini_generated",
                    some "gemini-1.5-flash", none⟩
            else none)
      else Except.ok []

/-- Model of `_try_gemini_generation`: the `except` clauses absorb every failure of
the body into the empty candidate list, so the component never raises. -/
def tryGeminiGeneration (apiKey : Option String) (out : HttpOutcome)
    (numCards : Nat) : List Card :=
  match tryGeminiBodyE apiKey out numCards with
  | Except.ok cards => cards
  | Except.error _ => []

/-- Gate of the AI branch in `generate_flashcards`: a truthy key that is
not the placeholder value. -/
def keyConfigured : Option String → Bool
  | none => false
  | some k => !(k == "") && !(k == "your_gemini_api_key_here")

/-- Model of `generate_flashcards`: empty-input guard, AI attempt, pattern top-up
with re-numbered ids, then final quality control and deduplication. -/
def generateFlashcards (apiKey : Option String) (out : HttpOutcome)
    (text : String) (numCards : Nat) : List Card :=
  if (pyStrip text.data).isEmpty then []
  else
    let aiCards :=
      if keyConfigured apiKey then tryGeminiGeneration apiKey out numCards
      else []
    let remaining := numCards - aiCards.length
    let patternQs :=
      if 0 < remaining then
        ((createPatternBasedQuestions (splitIntoSentencesL text.data) text.data
            remaining).enum).map fun iq =>
          { iq.2 with id := toString (aiCards.length + iq.1 + 1) }
      else []
    ensureQuestionQuality (aiCards ++ patternQs) numCards

/-- Python list indexing `l[i]` (negative indices count from the end);
raises `IndexError` when out of range. -/
def pyIndexE (l : List α) (i : Int) : Except String α :=
  let j : Int := if i < 0 then (l.length : Int) + i else i
  if j < 0 then Except.error "IndexError"
  else
    match l.get? j.toNat with
    | some x => Except.ok x
    | none => Except.error "IndexError"

/-- Exception-aware model of `_create_general_questions`: every sentence
access `sentences[0]`, `sentences[1]`, `sentences[-1]` goes through Python
indexing and can in principle raise `IndexError`; the source's emptiness
and length guards are kept as written. -/
def createGeneralQuestionsE (sentences : List (List Char)) (content : List Char)
    (numNeeded : Nat) : Except String (List PreCard) := do
  if sentences.isEmpty then Except.ok []
  else
    let cl := lowerL content
    let econ ←
      if ["economy".data, "economic".data, "market".data, "price".data].any
          (fun w => containsSub w cl) then do
        let a0 ← pyIndexE sentences 0
        Except.ok
          [("What type of economic system is described?".data, a0),
           ("How do prices function in this system?".data,
            findSentenceWithWords sentences ["price".data, "signal".data, "guide".data]),
           ("What guides economic decisions?".data,
            findSentenceWithWords sentences ["decision".data, "guide".data, "determine".data])]
      else Except.ok []
    let sci ←
      if ["process".data, "occurs".data, "involves".data, "produces".data].any
          (fun w => containsSub w cl) then do
        let a0 ← pyIndexE sentences 0
        Except.ok
          [("What process is being described?".data, a0),
           ("How does this process work?".data,
            findSentenceWithWords sentences ["process".data, "involves".data, "occurs".data]),
           ("What are the results of this process?".data,
            findSentenceWithWords sentences ["result".data, "produce".data, "create".data])]
      else Except.ok []
    let g1 ← pyIndexE sentences 0
    let g2 ←
      if 1 < sentences.length then pyIndexE sentences 1 else pyIndexE sentences 0
    let g3 ←
      if 1 < sentences.length then pyIndexE sentences (-1) else pyIndexE sentences 0
    let gens :=
      [("What is the main concept discussed?".data, g1),
       ("What are the key characteristics mentioned?".data, g2),
       ("What examples are provided?".data, g3)]
    Except.ok (((econ ++ sci ++ gens).take numNeeded).filterMap fun t =>
      if t.2.isEmpty then none
      else some ⟨t.1, t.2, "general_template", none⟩)

/-- Exception-aware model of `_create_pattern_based_questions`. -/
def createPatternBasedQuestionsE (sentences : List (List Char))
    (content : List Char) (numQuestions : Nat) : Except String (List Card) := do
  let qs := (patCandidates content).take numQuestions
  let qs ←
    if qs.length < numQuestions then do
      let gen ← createGeneralQuestionsE sentences content (numQuestions - qs.length)
      Except.ok (qs ++ gen)
    else Except.ok qs
  Except.ok ((qs.take numQuestions).enum.map fun iq =>
    cardOfPre (toString (iq.1 + 1)) iq.2)

/-- Exception-aware model of `generate_flashcards` (the AI branch is the
total catch-all `_try_gemini_generation`, which cannot raise). -/
def generateFlashcardsE (apiKey : Option String) (out : HttpOutcome)
    (text : String) (numCards : Nat) : Except String (List Card) := do
  if (pyStrip text.data).isEmpty then Except.ok []
  else
    let aiCards :=
      if keyConfigured apiKey then tryGeminiGeneration apiKey out numCards
      else []
    let remaining := numCards - aiCards.length
    let patternQs ←
      if 0 < remaining then do
        let pq ← createPatternBasedQuestionsE (splitIntoSentencesL text.data)
          text.data remaining
        Except.ok ((pq.enum).map fun iq =>
          { iq.2 with id := toString (aiCards.length + iq.1 + 1) })
      else Except.ok []
    Except.ok (ensureQuestionQuality (aiCards ++ patternQs) numCards)

/-- Failure outcomes of the AI call, per the spec's taxonomy: timeout,
request error, any other exception, a non-200 status, a 200 response with
no usable candidate text, an undecodable body, or a decodable body missing
the "flashcards" key. -/
def geminiFailed : HttpOutcome → Bool
  | HttpOutcome.timeout => true
  | HttpOutcome.reqError => true
  | HttpOutcome.exc => true
  | HttpOutcome.response status body =>
    if status == 200 then
      match body with
      | GeminiBody.noCandidates => true
      | GeminiBody.badCandidate => true
      | GeminiBody.text DecodeOutcome.malformed => true
      | GeminiBody.text DecodeOutcome.noFlashcardsKey => true
      | GeminiBody.text (DecodeOutcome.flashcards _) => false
    else true

/-- Acceptance predicate exactly as the spec sentence lists it (question
length in bounds, answer length in bounds, terminal question mark, an
interrogative word, not identical, word-count floors) — without the
source's extra prefix-exclusion conjuncts. -/
def specAccept (question answer : List Char) : Bool :=
  10 ≤ question.length &&
  question.length ≤ 150 &&
  15 ≤ answer.length &&
  answer.length ≤ 500 &&
  (match question.getLast? with | some c => c == '?' | none => false) &&
  (interrogatives.any fun w => containsSub w (lowerL question)) &&
  question != answer &&
  3 ≤ wordCount question &&
  4 ≤ wordCount answer

/-- Acceptance predicate as amended: the spec's conjuncts plus the two
prefix-exclusion conjuncts the source also checks. -/
def amendedAccept (question answer : List Char) : Bool :=
  specAccept question answer &&
  !(["question:".data, "ask:".data, "generate:".data].any
      fun p => liStarts p (lowerL question)) &&
  !(["answer:".data, "response:".data].any
      fun p => liStarts p (lowerL answer))

/-- Difficulty exactly as the spec sentence describes it: the sum of six
binary (0-or-1) signals, `≤ 2 → easy`, `≤ 4 → medium`, else `hard`. -/
def specDifficulty (question answer : List Char) : String :=
  let text := question ++ ' ' :: answer
  let total :=
    (if 25 < wordCount text then 1 else 0) +
    (if 2 < longWordCount text then 1 else 0) +
    (if 1 < technicalCount text then 1 else 0) +
    (if 1 < punctCount text then 1 else 0) +
    (if 0 < abstractCount text then 1 else 0) +
    (if 0 < questionComplexity question then 1 else 0)
  if total ≤ 2 then "easy" else if total ≤ 4 then "medium" else "hard"

/-- Difficulty as amended: the same six binary signals, but the
technical-terms signal is weighted 2 in the sum. -/
def amendedDifficulty (question answer : List Char) : String :=
  let text := question ++ ' ' :: answer
  let total :=
    (if 25 < wordCount text then 1 else 0) +
    (if 2 < longWordCount text then 1 else 0) +
    2 * (if 1 < technicalCount text then 1 else 0) +
    (if 1 < punctCount text then 1 else 0) +
    (if 0 < abstractCount text then 1 else 0) +
    (if 0 < questionComplexity question then 1 else 0)
  if total ≤ 2 then "easy" else if total ≤ 4 then "medium" else "hard"

/-- The spec's worked scenario text (§8): two sentences about
photosynthesis. -/
def scenarioText : String :=
  "Photosynthesis is the process by which plants convert light energy into chemical energy. This process occurs in the chloroplasts and involves two main stages: light reactions and dark reactions."

/-- A text whose first two definition-rule matches produce the same
question, exercising deduplication. -/
def dupQuestionText : String :=
  "Photosynthesis is the biological process used by green plants daily. Photosynthesis is the mechanism that powers all plant growth."

/-- A text containing an abbreviation followed by a capitalized name. -/
def abbrevText : String :=
  "Dr. Smith reviewed the experimental results very carefully. The new vaccine then passed all required tests."

/-- The deduplication loop returns a sublist of its input pool. -/
theorem ensureGo_sublist (qs : List Card) :
    ∀ (seen : List (List Char)) (cnt target : Nat),
      (ensureGo qs seen cnt target).Sublist qs := by
  induction qs with
  | nil => intro seen cnt target; simp [ensureGo]
  | cons q rest ih =>
    intro seen cnt target
    simp only [ensureGo]
    split
    · exact (ih seen cnt target).cons q
    · split
      · exact (ih seen cnt target).cons q
      · split
        · exact (List.nil_sublist rest).cons₂ q
        · exact (ih _ _ target).cons₂ q

/-- While fewer than `target` cards are kept, the loop keeps at most the
remaining quota. -/
theorem ensureGo_length_le (qs : List Card) :
    ∀ (seen : List (List Char)) (cnt target : Nat), cnt < target →
      (ensureGo qs seen cnt target).length ≤ target - cnt := by
  induction qs with
  | nil => intro seen cnt target _; simp [ensureGo]
  | cons q rest ih =>
    intro seen cnt target h
    simp only [ensureGo]
    split
    · exact ih seen cnt target h
    · split
      · exact ih seen cnt target h
      · split
        · simp only [List.length_cons, List.length_nil]
          omega
        · rename_i hlt
          have h2 : cnt + 1 < target := by omega
          have h3 := ih (normalizeForComparisonL (pyStrip q.question.data) :: seen)
            (cnt + 1) target h2
          simp only [List.length_cons]
          omega

/-- Every key of a card kept by the loop is absent from the seen set the
loop started with. -/
theorem ensureGo_keys_not_seen (qs : List Card) :
    ∀ (seen : List (List Char)) (cnt target : Nat),
      ∀ k ∈ (ensureGo qs seen cnt target).map cardKey, seen.contains k = false := by
  induction qs with
  | nil => intro seen cnt target k hk; simp [ensureGo] at hk
  | cons q rest ih =>
    intro seen cnt target k hk
    simp only [ensureGo] at hk
    split at hk
    · exact ih seen cnt target k hk
    · split at hk
      · exact ih seen cnt target k hk
      · rename_i hnotseen
        split at hk
        · simp only [List.map_cons, List.map_nil, List.mem_singleton] at hk
          subst hk
          exact Bool.not_eq_true _ ▸ (Bool.eq_false_iff.mpr hnotseen)
        · simp only [List.map_cons, List.mem_cons] at hk
          rcases hk with hk | hk
          · subst hk
            exact Bool.eq_false_iff.mpr hnotseen
          · have := ih (cardKey q :: seen) (cnt + 1) target k hk
            simp only [List.contains_cons, Bool.or_eq_false_iff] at this
            exact this.2

/-- The normalization keys of the kept cards are pairwise distinct. -/
theorem ensureGo_keys_nodup (qs : List Card) :
    ∀ (seen : List (List Char)) (cnt target : Nat),
      ((ensureGo qs seen cnt target).map cardKey).Nodup := by
  induction qs with
  | nil => intro seen cnt target; simp [ensureGo]
  | cons q rest ih =>
    intro seen cnt target
    simp only [ensureGo]
    split
    · exact ih seen cnt target
    · split
      · exact ih seen cnt target
      · split
        · simp
        · simp only [List.map_cons, List.nodup_cons]
          refine ⟨fun hmem => ?_, ih _ _ target⟩
          have := ensureGo_keys_not_seen rest (cardKey q :: seen) (cnt + 1) target
            (cardKey q) hmem
          simp [List.contains_cons] at this

/-- With a zero target the AI branch keeps no cards. -/
theorem tryGemini_zero (apiKey : Option String) (out : HttpOutcome) :
    tryGeminiGeneration apiKey out 0 = [] := by
  cases hk : keyTruthy apiKey with
  | false => simp [tryGeminiGeneration, tryGeminiBodyE, hk]
  | true =>
    cases out with
    | timeout => simp [tryGeminiGeneration, tryGeminiBodyE, hk]
    | reqError => simp [tryGeminiGeneration, tryGeminiBodyE, hk]
    | exc => simp [tryGeminiGeneration, tryGeminiBodyE, hk]
    | response status body =>
      cases hs : status == 200 with
      | false => simp [tryGeminiGeneration, tryGeminiBodyE, hk, hs]
      | true =>
        cases body with
        | noCandidates => simp [tryGeminiGeneration, tryGeminiBodyE, hk, hs]
        | badCandidate => simp [tryGeminiGeneration, tryGeminiBodyE, hk, hs]
        | text d => simp [tryGeminiGeneration, tryGeminiBodyE, hk, hs]

/-- The AI branch never keeps more cards than requested. -/
theorem tryGemini_length_le (apiKey : Option String) (out : HttpOutcome)
    (n : Nat) : (tryGeminiGeneration apiKey out n).length ≤ n := by
  cases hk : keyTruthy apiKey with
  | false => simp [tryGeminiGeneration, tryGeminiBodyE, hk]
  | true =>
    cases out with
    | timeout => simp [tryGeminiGeneration, tryGeminiBodyE, hk]
    | reqError => simp [tryGeminiGeneration, tryGeminiBodyE, hk]
    | exc => simp [tryGeminiGeneration, tryGeminiBodyE, hk]
    | response status body =>
      cases hs : status == 200 with
      | false => simp [tryGeminiGeneration, tryGeminiBodyE, hk, hs]
      | true =>
        cases body with
        | noCandidates => simp [tryGeminiGeneration, tryGeminiBodyE, hk, hs]
        | badCandidate => simp [tryGeminiGeneration, tryGeminiBodyE, hk, hs]
        | text d =>
          simp only [tryGeminiGeneration, tryGeminiBodyE, hk, hs, Bool.not_true,
            Bool.false_eq_true, if_false, if_true]
          calc (List.filterMap _ ((parseGeminiResponse d).take n).enum).length
              ≤ ((parseGeminiResponse d).take n).enum.length :=
                List.length_filterMap_le _ _
            _ = ((parseGeminiResponse d).take n).length := List.enum_length
            _ ≤ n := by rw [List.length_take]; omega

/-- Claim C1: for every input text with at least one well-formed sentence
and every target count `n`, `generate_flashcards` returns at most `n`
cards and no two of them have questions with the same normalization key
(lowercase, stopwords removed, punctuation stripped, whitespace
collapsed). -/
theorem generate_flashcards_dedup_invariant (apiKey : Option String)
    (out : HttpOutcome) (text : String) (n : Nat)
    (h : splitIntoSentences text ≠ []) :
    (generateFlashcards apiKey out text n).length ≤ n ∧
    ((generateFlashcards apiKey out text n).map cardKey).Nodup := by
  unfold generateFlashcards
  split
  · simp
  · cases Nat.eq_zero_or_pos n with
    | inl h0 =>
      subst h0
      have hai : (if keyConfigured apiKey then tryGeminiGeneration apiKey out 0
          else []) = [] := by
        split
        · exact tryGemini_zero apiKey out
        · rfl
      simp only [hai, List.length_nil, Nat.sub_zero, Nat.lt_irrefl, if_neg,
        List.nil_append, Nat.le_refl]
      simp [ensureQuestionQuality, ensureGo]
    | inr hpos =>
      constructor
      · have := ensureGo_length_le
          ((if keyConfigured apiKey then tryGeminiGeneration apiKey out n else []) ++
            (if 0 < n - (if keyConfigured apiKey then tryGeminiGeneration apiKey out n
                else []).length then
              ((createPatternBasedQuestions (splitIntoSentencesL text.data) text.data
                  (n - (if keyConfigured apiKey then tryGeminiGeneration apiKey out n
                    else []).length)).enum).map fun iq =>
                { iq.2 with id := toString ((if keyConfigured apiKey then
                    tryGeminiGeneration apiKey out n else []).length + iq.1 + 1) }
            else []))
          [] 0 n hpos
        simpa [ensureQuestionQuality] using this
      · exact ensureGo_keys_nodup _ [] 0 n

/-- Witness for C1 at a concrete text with one well-formed sentence. -/
theorem generate_flashcards_dedup_invariant_witness :
    splitIntoSentences "Water is the essential compound supporting all life." ≠ [] ∧
    ((generateFlashcards none HttpOutcome.timeout
        "Water is the essential compound supporting all life." 3).length ≤ 3 ∧
      ((generateFlashcards none HttpOutcome.timeout
          "Water is the essential compound supporting all life." 3).map cardKey).Nodup) :=
  ⟨by decide,
   generate_flashcards_dedup_invariant none HttpOutcome.timeout
     "Water is the essential compound supporting all life." 3 (by decide)⟩

/-- Every failure outcome makes the AI branch contribute nothing. -/
theorem tryGemini_failed_eq_nil (apiKey : Option String) (out : HttpOutcome)
    (n : Nat) (h : geminiFailed out = true) :
    tryGeminiGeneration apiKey out n = [] := by
  cases hk : keyTruthy apiKey with
  | false => simp [tryGeminiGeneration, tryGeminiBodyE, hk]
  | true =>
    cases out with
    | timeout => simp [tryGeminiGeneration, tryGeminiBodyE, hk]
    | reqError => simp [tryGeminiGeneration, tryGeminiBodyE, hk]
    | exc => simp [tryGeminiGeneration, tryGeminiBodyE, hk]
    | response status body =>
      cases hs : status == 200 with
      | false => simp [tryGeminiGeneration, tryGeminiBodyE, hk, hs]
      | true =>
        cases body with
        | noCandidates => simp [tryGeminiGeneration, tryGeminiBodyE, hk, hs]
        | badCandidate => simp [tryGeminiGeneration, tryGeminiBodyE, hk, hs]
        | text d =>
          cases d with
          | malformed =>
            simp [tryGeminiGeneration, tryGeminiBodyE, hk, hs, parseGeminiResponse]
          | noFlashcardsKey =>
            simp [tryGeminiGeneration, tryGeminiBodyE, hk, hs, parseGeminiResponse]
          | flashcards cards => simp [geminiFailed, hs] at h

/-- Claim C2: for every provider failure behaviour (timeout, request
error, other exception, non-success HTTP status, missing candidates,
undecodable body, missing "flashcards" key), the AI Requester — whose
`except` clauses absorb every raised error into a plain list — contributes
zero candidates, and the whole pipeline degrades to the pattern-only
output. -/
theorem ai_failure_falls_through (apiKey : Option String) (out : HttpOutcome)
    (n : Nat) (text : String) (m : Nat) (h : geminiFailed out = true) :
    tryGeminiGeneration apiKey out n = [] ∧
    generateFlashcards apiKey out text m = generateFlashcards none out text m := by
  refine ⟨tryGemini_failed_eq_nil apiKey out n h, ?_⟩
  unfold generateFlashcards
  split
  · rfl
  · simp [tryGemini_failed_eq_nil apiKey out m h, keyConfigured, ite_self]

/-- Witness for C2 at a concrete failure (timeout with a configured key). -/
theorem ai_failure_falls_through_witness :
    geminiFailed HttpOutcome.timeout = true ∧
    (tryGeminiGeneration (some "k") HttpOutcome.timeout 4 = [] ∧
      generateFlashcards (some "k") HttpOutcome.timeout scenarioText 3 =
        generateFlashcards none HttpOutcome.timeout scenarioText 3) :=
  ⟨by decide,
   ai_failure_falls_through (some "k") HttpOutcome.timeout 4 scenarioText 3 (by decide)⟩

/-- Claim C4 counterexample: a pair that satisfies every conjunct the spec
lists, yet the source predicate rejects it because the question starts
with "question:". -/
theorem quality_gate_spec_counterexample :
    specAccept "Question: what is it?".data "It is quite a large heavy object.".data
        = true ∧
    isQualityQuestionL "Question: what is it?".data
        "It is quite a large heavy object.".data = false :=
  ⟨by decide, by decide⟩

/-- Boolean rearrangement behind the C4 characterization. -/
theorem boolRearrange11 : ∀ (a b c d e f p q g h i : Bool),
    (a && b && c && d && e && f && p && q && g && h && i) =
    ((a && b && c && d && e && f && g && h && i) && p && q) := by
  decide

/-- Claim C4 (amended): the source's acceptance predicate equals the
spec's conjunction extended with the two prefix-exclusion conjuncts
(question not starting with "question:", "ask:", "generate:"; answer not
starting with "answer:", "response:"). -/
theorem quality_gate_accept_characterization (question answer : List Char) :
    isQualityQuestionL question answer = amendedAccept question answer := by
  unfold isQualityQuestionL amendedAccept specAccept
  exact boolRearrange11 _ _ _ _ _ _ _ _ _ _ _

/-- Claim C5 counterexample: two technical-suffix terms add 2 (not 1) to
the source's score, so a pair whose six binary signals sum to 2 (easy per
the spec's rule) is labelled medium by the source. -/
theorem difficulty_weight_counterexample :
    assessDifficultyL "Why visit that city?".data
        "The city has great purity.".data = "medium" ∧
    specDifficulty "Why visit that city?".data
        "The city has great purity.".data = "easy" :=
  ⟨by decide, by decide⟩

/-- Claim C5 (amended): the difficulty label equals the sum of the six
binary signals with the technical-terms signal weighted 2, mapped through
the same thresholds. -/
theorem difficulty_weighted_characterization (question answer : List Char) :
    assessDifficultyL question answer = amendedDifficulty question answer := by
  unfold assessDifficultyL amendedDifficulty
  dsimp only
  by_cases h : 1 < technicalCount (question ++ ' ' :: answer)
  · simp only [h, if_true, if_pos]
  · simp only [h, if_false, if_neg, not_false_iff, Nat.mul_zero]

/-- Claim C7 (code bug): the abbreviation mask never fires — its regex
requires a literal backslash — so the period of "Dr." is treated as a
sentence boundary and the fragment "Dr." is discarded by the length
filter. -/
theorem abbrev_mask_never_fires :
    maskAbbrev abbrevText.data = abbrevText.data ∧
    splitIntoSentences abbrevText =
      ["Smith reviewed the experimental results very carefully.",
       "The new vaccine then passed all required tests."] :=
  ⟨by decide, by decide⟩

/-- Claim C8 counterexample: non-empty raw text with zero qualifying
sentences — the general-template fallback returns the empty list (no
truncated-content answers), and the whole pipeline returns no cards. -/
theorem general_fallback_counterexample :
    "Cats nap daily." ≠ "" ∧
    splitIntoSentences "Cats nap daily." = [] ∧
    createGeneralQuestions (splitIntoSentencesL "Cats nap daily.".data)
        "Cats nap daily.".data 3 = [] ∧
    generateFlashcards none HttpOutcome.timeout "Cats nap daily." 3 = [] := by
  refine ⟨by decide, by decide, by decide, by decide⟩

/-- Claim C8 (amended): whenever segmentation yields zero qualifying
sentences, the general-template fallback returns the empty list — also in
the exception-aware model, so it never raises — rather than any
truncated-content candidates. -/
theorem general_fallback_empty_on_no_sentences (text : String)
    (content : List Char) (n : Nat) (h : splitIntoSentencesL text.data = []) :
    createGeneralQuestions (splitIntoSentencesL text.data) content n = [] ∧
    createGeneralQuestionsE (splitIntoSentencesL text.data) content n =
      Except.ok [] := by
  rw [h]
  exact ⟨rfl, rfl⟩

/-- Witness for C8 (amended) at the concrete degenerate text. -/
theorem general_fallback_empty_on_no_sentences_witness :
    splitIntoSentencesL "Cats nap daily.".data = [] ∧
    (createGeneralQuestions (splitIntoSentencesL "Cats nap daily.".data)
        "Cats nap daily.".data 5 = [] ∧
      createGeneralQuestionsE (splitIntoSentencesL "Cats nap daily.".data)
        "Cats nap daily.".data 5 = Except.ok []) :=
  ⟨by decide,
   general_fallback_empty_on_no_sentences "Cats nap daily."
     "Cats nap daily.".data 5 (by decide)⟩

/-- Length of the pattern-question list is at most the requested count. -/
theorem createPatternBased_length_le (sentences : List (List Char))
    (content : List Char) (n : Nat) :
    (createPatternBasedQuestions sentences content n).length ≤ n := by
  unfold createPatternBasedQuestions
  dsimp only
  rw [List.length_map, List.enum_length, List.length_take]
  exact Nat.min_le_left _ _

/-- Sequential id assignment over an enumeration equals a numeral range. -/
theorem enumFrom_idString (L : List Card) : ∀ (k : Nat),
    ((List.enumFrom k L).map fun iq => toString (iq.1 + 1)) =
      (List.range' (k + 1) L.length).map toString := by
  induction L with
  | nil => intro k; rfl
  | cons a L ih =>
    intro k
    simp only [List.enumFrom, List.map_cons, List.length_cons, List.range']
    exact congrArg _ (ih (k + 1))

/-- Shorter numeral ranges are sublists of longer ones. -/
theorem range'_sublist : ∀ (m n s : Nat), m ≤ n →
    (List.range' s m).Sublist (List.range' s n)
  | 0, _, _, _ => List.nil_sublist _
  | m + 1, n, s, h => by
    match n, h with
    | n' + 1, h =>
      simp only [List.range']
      exact (range'_sublist m n' (s + 1) (Nat.le_of_succ_le_succ h)).cons₂ s

/-- Claim C6 counterexample: ids are assigned before deduplication, so
after the duplicate "What is Photosynthesis?" card is dropped the
response ids are "1","3" — not the sequential "1","2" of the claim. -/
theorem id_sequence_counterexample :
    ((generateFlashcards none HttpOutcome.timeout dupQuestionText 3).map
        fun c => c.id) = ["1", "3"] ∧
    (["1", "3"] : List String) ≠ ["1", "2"] :=
  ⟨by decide, by decide⟩

/-- Claim C6 (amended): in pattern-only mode ids are assigned sequentially
from "1" before deduplication and preserved by it, so the returned id
sequence is a sublist of "1", ..., "n" (strictly increasing, possibly with
gaps). -/
theorem pattern_only_ids_sublist (out : HttpOutcome) (text : String) (n : Nat) :
    ((generateFlashcards none out text n).map fun c => c.id).Sublist
      ((List.range' 1 n).map toString) := by
  unfold generateFlashcards
  split
  · simp
  · simp only [keyConfigured, Bool.false_eq_true, if_false, List.length_nil,
      Nat.sub_zero, Nat.zero_add, List.nil_append]
    by_cases hn : 0 < n
    · simp only [hn, if_true]
      refine List.Sublist.trans
        ((ensureGo_sublist _ [] 0 n).map fun c => c.id) ?_
      rw [List.map_map]
      have hids : ((createPatternBasedQuestions (splitIntoSentencesL text.data)
            text.data n).enum.map
            ((fun c => c.id) ∘ fun iq => { iq.2 with id := toString (iq.1 + 1) })) =
          (List.range' 1 (createPatternBasedQuestions (splitIntoSentencesL text.data)
            text.data n).length).map toString := by
        rw [show ((fun (c : Card) => c.id) ∘
            fun iq : Nat × Card => { iq.2 with id := toString (iq.1 + 1) }) =
            fun iq : Nat × Card => toString (iq.1 + 1) from rfl, List.enum]
        exact enumFrom_idString _ 0
      rw [hids]
      exact (range'_sublist _ n 1 (createPatternBased_length_le _ _ n)).map toString
    · have hn0 : n = 0 := by omega
      subst hn0
      simp [ensureQuestionQuality, ensureGo]

/-- Claim C3 counterexample: for empty input the sentence view is empty
but the paragraph view falls back to the singleton containing the raw
text, so it is not an empty sequence. -/
theorem paragraphs_empty_counterexample :
    splitIntoSentences "" = [] ∧ splitIntoParagraphs "" = [""] ∧
    splitIntoParagraphs "" ≠ [] :=
  ⟨by decide, by decide, by decide⟩

/-- All-whitespace lists survive `dropWhile isSpaceC` as the empty list. -/
theorem all_space_dropWhile (l : List Char) (h : l.all isSpaceC = true) :
    l.dropWhile isSpaceC = [] := by
  induction l with
  | nil => rfl
  | cons c rest ih =>
    simp only [List.all_cons, Bool.and_eq_true] at h
    rw [List.dropWhile_cons, if_pos h.1]
    exact ih h.2

/-- All-whitespace lists strip to the empty list. -/
theorem all_space_pyStrip (l : List Char) (h : l.all isSpaceC = true) :
    pyStrip l = [] := by
  unfold pyStrip
  rw [all_space_dropWhile l h]
  rfl

/-- The abbreviation regex cannot match at a whitespace character. -/
theorem findAbbrevMatch_space (c : Char) (rest : List Char)
    (h : isSpaceC c = true) : findAbbrevMatch (c :: rest) = none := by
  have hne : ∀ p : Char, p.isAlpha = true → (p == c) = false := by
    simp only [isSpaceC, Bool.or_eq_true, beq_iff_eq] at h
    intro p hp
    rw [beq_eq_false_iff_ne]
    rcases h with ((((rfl | rfl) | rfl) | rfl) | rfl) | rfl <;>
      · rintro rfl
        exact absurd hp (by decide)
  simp [findAbbrevMatch, abbrevAlts, firstSome, liStarts,
    hne 'D' (by decide), hne 'M' (by decide), hne 'P' (by decide),
    hne 'I' (by decide), hne 'L' (by decide), hne 'e' (by decide),
    hne 'v' (by decide), hne 'i' (by decide)]

/-- The abbreviation mask is the identity on all-whitespace text. -/
theorem maskAbbrevGo_all_space : ∀ (fuel : Nat) (b : Bool) (l : List Char),
    l.all isSpaceC = true → maskAbbrevGo fuel b l = l := by
  intro fuel
  induction fuel with
  | zero => intro b l _; rfl
  | succ fuel ih =>
    intro b l h
    match l with
    | [] => rfl
    | c :: rest =>
      simp only [List.all_cons, Bool.and_eq_true] at h
      cases b with
      | true => simp only [maskAbbrevGo, Bool.not_true, Bool.false_eq_true,
          if_false, ih (isWordC c) rest h.2]
      | false =>
        simp only [maskAbbrevGo, Bool.not_false, if_true,
          findAbbrevMatch_space c rest h.1, ih (isWordC c) rest h.2]

/-- The boundary splitter returns a single fragment on all-whitespace text. -/
theorem sentBoundsGo_all_space : ∀ (fuel : Nat) (l acc : List Char)
    (prev : Option Char), l.all isSpaceC = true →
    sentBoundsGo fuel l acc prev = [acc.reverse ++ l] := by
  intro fuel
  induction fuel with
  | zero => intro l acc prev _; rfl
  | succ fuel ih =>
    intro l acc prev h
    match l with
    | [] => simp [sentBoundsGo]
    | c :: rest =>
      simp only [List.all_cons, Bool.and_eq_true] at h
      have hdrop : rest.dropWhile isSpaceC = [] := all_space_dropWhile rest h.2
      have hrec : sentBoundsGo fuel rest (c :: acc) (some c) =
          [(c :: acc).reverse ++ rest] := ih rest (c :: acc) (some c) h.2
      simp only [sentBoundsGo, hdrop, List.isEmpty_nil, if_true]
      split
      · rw [hrec]
        simp
      · rw [hrec]
        simp

/-- Sentence segmentation of all-whitespace text is empty. -/
theorem splitIntoSentencesL_all_space (l : List Char)
    (h : l.all isSpaceC = true) : splitIntoSentencesL l = [] := by
  unfold splitIntoSentencesL
  dsimp only
  rw [show maskAbbrev l = l from maskAbbrevGo_all_space l.length false l h]
  rw [sentBoundsGo_all_space l.length l [] none h]
  have hmap : (l.map fun c => if c == '●' then '.' else c) = l := by
    rw [List.map_congr_left, List.map_id]
    intro c hc
    have hs : isSpaceC c = true := by
      rw [List.all_eq_true] at h
      exact h c hc
    have hb : (c == '●') = false := by
      rw [beq_eq_false_iff_ne]
      rintro rfl
      exact absurd hs (by decide)
    simp [hb]
  simp only [List.reverse_nil, List.nil_append, List.filterMap, hmap,
    all_space_pyStrip l h, List.length_nil]
  simp

/-- Every piece produced by the paragraph splitter over all-whitespace
text is itself all-whitespace. -/
theorem splitOnSep2Go_all_space : ∀ (l acc : List Char),
    l.all isSpaceC = true → acc.all isSpaceC = true →
    ∀ p ∈ splitOnSep2Go '\n' '\n' acc l, p.all isSpaceC = true
  | [], acc, _, ha, p, hp => by
    simp only [splitOnSep2Go, List.mem_singleton] at hp
    subst hp
    simpa using ha
  | [c], acc, hl, ha, p, hp => by
    simp only [splitOnSep2Go, List.mem_singleton] at hp
    subst hp
    simp only [List.all_cons, Bool.and_eq_true] at hl
    simp only [List.all_reverse, List.all_cons, Bool.and_eq_true]
    exact ⟨hl.1, by simpa using ha⟩
  | c :: d :: rest2, acc, hl, ha, p, hp => by
    simp only [List.all_cons, Bool.and_eq_true] at hl
    simp only [splitOnSep2Go] at hp
    split at hp
    · simp only [List.mem_cons] at hp
      rcases hp with hp | hp
      · subst hp
        simpa using ha
      · exact splitOnSep2Go_all_space rest2 [] hl.2.2 (by simp) p hp
    · refine splitOnSep2Go_all_space (d :: rest2) (c :: acc)
        (by simp [hl.2.1, hl.2.2]) ?_ p hp
      simp only [List.all_cons, Bool.and_eq_true]
      exact ⟨hl.1, ha⟩

/-- Paragraph segmentation of all-whitespace text falls back to the raw
text itself. -/
theorem splitIntoParagraphsL_all_space (l : List Char)
    (h : l.all isSpaceC = true) : splitIntoParagraphsL l = [l] := by
  unfold splitIntoParagraphsL splitOnSep2
  dsimp only
  have hnone : ∀ p ∈ splitOnSep2Go '\n' '\n' [] l,
      (fun p => let s := pyStrip p; if s.isEmpty then none else some (s : List Char)) p
        = none := by
    intro p hp
    have := splitOnSep2Go_all_space l [] h (by simp) p hp
    simp [all_space_pyStrip p this]
  rw [List.filterMap_eq_nil.mpr hnone]
  rfl

/-- Claim C3 (amended): for empty or whitespace-only input the sentence
view is empty, the paragraph view is the singleton `[text]`, and
`generate_flashcards` returns the empty sequence for every count and
provider behaviour. -/
theorem whitespace_input_behaviour (text : String)
    (h : text.data.all isSpaceC = true) :
    splitIntoSentences text = [] ∧ splitIntoParagraphs text = [text] ∧
    ∀ (apiKey : Option String) (out : HttpOutcome) (n : Nat),
      generateFlashcards apiKey out text n = [] := by
  refine ⟨?_, ?_, ?_⟩
  · unfold splitIntoSentences
    rw [splitIntoSentencesL_all_space text.data h]
    rfl
  · unfold splitIntoParagraphs
    rw [splitIntoParagraphsL_all_space text.data h]
    rfl
  · intro apiKey out n
    unfold generateFlashcards
    rw [if_pos]
    rw [all_space_pyStrip text.data h]
    rfl

/-- Witness for C3 (amended) at a concrete whitespace-only text. -/
theorem whitespace_input_behaviour_witness :
    " \n \t ".data.all isSpaceC = true ∧
    (splitIntoSentences " \n \t " = [] ∧ splitIntoParagraphs " \n \t " = [" \n \t "] ∧
      generateFlashcards none HttpOutcome.timeout " \n \t " 7 = []) :=
  ⟨by decide,
   ⟨(whitespace_input_behaviour " \n \t " (by decide)).1,
    (whitespace_input_behaviour " \n \t " (by decide)).2.1,
    (whitespace_input_behaviour " \n \t " (by decide)).2.2 none HttpOutcome.timeout 7⟩⟩

/-- An `Except` value whose `isOk` test passes is an `ok`. -/
theorem exists_ok_of_isOk {e : Except String (List PreCard)} (h : e.isOk = true) :
    ∃ x, e = Except.ok x := by
  cases e with
  | ok v => exact ⟨v, rfl⟩
  | error _ => simp [Except.isOk, Except.toBool] at h

/-- An `Except` card-list value whose `isOk` test passes is an `ok`. -/
theorem exists_ok_of_isOk_cards {e : Except String (List Card)} (h : e.isOk = true) :
    ∃ x, e = Except.ok x := by
  cases e with
  | ok v => exact ⟨v, rfl⟩
  | error _ => simp [Except.isOk, Except.toBool] at h

/-- Python indexing at 0 succeeds on a nonempty list. -/
theorem pyIndexE_zero_ok {α : Type} (l : List α) (h : l ≠ []) :
    ∃ x, pyIndexE l 0 = Except.ok x := by
  match l, h with
  | a :: rest, _ => exact ⟨a, rfl⟩

/-- Python indexing at 1 succeeds when the list has more than one element. -/
theorem pyIndexE_one_ok {α : Type} (l : List α) (h : 1 < l.length) :
    ∃ x, pyIndexE l 1 = Except.ok x := by
  match l with
  | [] => simp at h
  | [a] => simp at h
  | a :: b :: rest => exact ⟨b, rfl⟩

/-- Python indexing at -1 succeeds on a nonempty list. -/
theorem pyIndexE_neg_one_ok {α : Type} (l : List α) (h : l ≠ []) :
    ∃ x, pyIndexE l (-1) = Except.ok x := by
  have hlen : 0 < l.length := List.length_pos.mpr h
  unfold pyIndexE
  dsimp only
  rw [if_pos (by decide : (-1 : Int) < 0)]
  rw [if_neg (by omega : ¬ ((l.length : Int) + (-1) < 0))]
  have htn : ((l.length : Int) + (-1)).toNat = l.length - 1 := by omega
  rw [htn]
  have hget : l.length - 1 < l.length := by omega
  refine ⟨l.get ⟨l.length - 1, hget⟩, ?_⟩
  rw [List.get?_eq_get hget]

/-- The exception-aware general-question builder always returns `ok`:
every indexing of the sentence list is guarded. -/
theorem createGeneralQuestionsE_ok (sentences : List (List Char))
    (content : List Char) (n : Nat) :
    ∃ qs, createGeneralQuestionsE sentences content n = Except.ok qs := by
  unfold createGeneralQuestionsE
  by_cases hempty : sentences.isEmpty
  · exact ⟨[], by rw [if_pos hempty]⟩
  · have hne : sentences ≠ [] := by simpa [List.isEmpty_iff] using hempty
    obtain ⟨x0, hx0⟩ := pyIndexE_zero_ok sentences hne
    rw [if_neg hempty]
    by_cases hlen : 1 < sentences.length
    · obtain ⟨x1, hx1⟩ := pyIndexE_one_ok sentences hlen
      obtain ⟨xm, hxm⟩ := pyIndexE_neg_one_ok sentences hne
      cases hc1 : (["economy".data, "economic".data, "market".data, "price".data].any
          fun w => containsSub w (lowerL content)) <;>
        cases hc2 : (["process".data, "occurs".data, "involves".data,
            "produces".data].any fun w => containsSub w (lowerL content)) <;>
        exact exists_ok_of_isOk (by
          simp [hc1, hc2, hlen, hx0, hx1, hxm, Bind.bind, Except.bind,
            Except.isOk, Except.toBool])
    · cases hc1 : (["economy".data, "economic".data, "market".data, "price".data].any
          fun w => containsSub w (lowerL content)) <;>
        cases hc2 : (["process".data, "occurs".data, "involves".data,
            "produces".data].any fun w => containsSub w (lowerL content)) <;>
        exact exists_ok_of_isOk (by
          simp [hc1, hc2, hlen, hx0, Bind.bind, Except.bind,
            Except.isOk, Except.toBool])

/-- The exception-aware pattern-question builder always returns `ok`. -/
theorem createPatternBasedQuestionsE_ok (sentences : List (List Char))
    (content : List Char) (n : Nat) :
    ∃ qs, createPatternBasedQuestionsE sentences content n = Except.ok qs := by
  unfold createPatternBasedQuestionsE
  dsimp only
  obtain ⟨g, hg⟩ := createGeneralQuestionsE_ok sentences content
    (n - ((patCandidates content).take n).length)
  by_cases hlt : ((patCandidates content).take n).length < n
  · rw [if_pos hlt, hg]
    exact ⟨_, rfl⟩
  · rw [if_neg hlt]
    exact ⟨_, rfl⟩

/-- Claim C10: in pattern-only mode (no API key), for every input text and
every requested count at least 1, `generate_flashcards` terminates and
returns a list without raising: in the exception-aware model, where every
sentence indexing can raise `IndexError`, the result is always `ok`. -/
theorem generate_flashcards_never_raises (out : HttpOutcome) (text : String)
    (n : Nat) (h : 1 ≤ n) :
    ∃ cards, generateFlashcardsE none out text n = Except.ok cards := by
  unfold generateFlashcardsE
  by_cases hstrip : (pyStrip text.data).isEmpty
  · exact ⟨[], by rw [if_pos hstrip]⟩
  · rw [if_neg hstrip]
    obtain ⟨pq, hpq⟩ := createPatternBasedQuestionsE_ok
      (splitIntoSentencesL text.data) text.data n
    have hn : 0 < n - (List.length ([] : List Card)) := by
      simpa using Nat.lt_of_lt_of_le Nat.zero_lt_one h
    exact exists_ok_of_isOk_cards (by
      simp [keyConfigured, hn, hpq, Bind.bind, Except.bind, Except.isOk,
        Except.toBool, show 0 < n from by omega])

/-- Witness for C10 at a concrete text and count. -/
theorem generate_flashcards_never_raises_witness :
    1 ≤ 2 ∧ ∃ cards, generateFlashcardsE none HttpOutcome.timeout
      "Hi there friend." 2 = Except.ok cards :=
  ⟨by decide,
   generate_flashcards_never_raises HttpOutcome.timeout "Hi there friend." 2 (by decide)⟩

/-- Claim C9 counterexample: on the spec's photosynthesis scenario with
n = 3 and no AI contribution, no returned flashcard has the question
"How many main stages are involved in this process?" — the source has no
stage-count pattern. -/
theorem scenario_no_stage_count_question :
    ¬ ("How many main stages are involved in this process?" ∈
        ((generateFlashcards none HttpOutcome.timeout scenarioText 3).map
          fun c => c.question)) := by
  decide

/-- Claim C9 (amended): the scenario's actual output — the definition-rule
card "What is Photosynthesis?", a processes-rule card whose answer reports
the "two main stages: light reactions and dark reactions.", and the
general template "What process is being described?". -/
theorem scenario_output_cards :
    ((generateFlashcards none HttpOutcome.timeout scenarioText 3).map
        fun c => (c.question, c.answer)) =
      [("What is Photosynthesis?",
        "Photosynthesis is process by which plants convert light energy into chemical energy."),
       ("What does This process occurs in the chloroplasts and involve?",
        "This process occurs in the chloroplasts and involves two main stages: light reactions and dark reactions."),
       ("What process is being described?",
        "Photosynthesis is the process by which plants convert light energy into chemical energy.")] := by
  decide

end StudyBuddy
